import Mathlib

/-!
Verification of the `tmgp` model-trainer scripts.

The repository consists of two scripts, `trainer.py` and
`empathetic_summaries.py`, that fine-tune a pretrained sequence-to-sequence
summarization model.  We shallowly embed the parts of the scripts the
claims are about: the feature-conversion closure, the percentage-based
dataset splitting, the batched metric evaluation loop, the checkpoint
summary generator, the evaluation callback and the try/except structure of
the script tails.

Tokenization itself is delegated to an external framework; we model a
tokenizer abstractly as a function from strings to token-id lists together
with a padding-token id.  Truncation to a maximum length is `List.take`,
and the attention mask of an unpadded encoding is a list of ones of the
same length as the ids, which is how the external tokenizer behaves when
called without padding.
-/

/-- An abstract tokenizer: `encode` maps a text to its token-id sequence,
`pad_token_id` is the id of the padding token. -/
structure Tok where
  encode : String → List Nat
  pad_token_id : Nat

/-- `tokenizer(text, max_length=m, truncation=True)`: the token-id sequence
truncated to at most `m` ids. -/
def tokenizeTrunc (tok : Tok) (maxLength : Nat) (s : String) : List Nat :=
  (tok.encode s).take maxLength

/-- The attention mask returned for an unpadded encoding: all ones, same
length as the id sequence. -/
def attentionMask (ids : List Nat) : List Nat :=
  List.replicate ids.length 1

/-- `[tokenizer.pad_token_id] + ids[:-1]`: the shift-right used on the
target encodings in `convert_examples_to_features`. -/
def shiftRight (pad : Nat) (ids : List Nat) : List Nat :=
  pad :: ids.dropLast

/-- An example of the samsum dataset as read by `trainer.py`:
columns `dialogue` and `summary`. -/
structure ExampleT where
  dialogue : String
  summary : String

/-- An example of the empathetic-dialogues dataset as read by
`empathetic_summaries.py`: columns `utterance` and `summary`. -/
structure ExampleE where
  utterance : String
  summary : String

/-- The feature dictionary returned by `convert_examples_to_features`. -/
structure Features where
  input_ids : List (List Nat)
  attention_mask : List (List Nat)
  labels : List (List Nat)
deriving DecidableEq, Repr

/-- `convert_examples_to_features` of `trainer.py` (lines 90-103).
The source tokenizes `example_batch['dialogue']` with `max_length=1024`,
the target `example_batch['summary']` with `max_length=128`; it stores a
copy of the target ids under `labels`, overwrites the target `input_ids`
with `[pad] + ids[:-1]`, and returns the overwritten `input_ids` under the
key `'labels'` (the stored copy is dead). -/
def convert_examples_to_features_trainer (tok : Tok) (batch : List ExampleT) :
    Features :=
  let input_encodings := batch.map (fun e => tokenizeTrunc tok 1024 e.dialogue)
  let target_ids := batch.map (fun e => tokenizeTrunc tok 128 e.summary)
  let labels_copy := target_ids
  let shifted := target_ids.map (fun ids => shiftRight tok.pad_token_id ids)
  { input_ids := input_encodings
    attention_mask := input_encodings.map attentionMask
    labels := shifted }

/-- The direct tokenized target sequences, i.e. the value the source stores
in `target_encodings['labels']` before overwriting `input_ids`; it is not
what `convert_examples_to_features` returns under `'labels'`. -/
def directTargetLabels (tok : Tok) (summaries : List String) : List (List Nat) :=
  summaries.map (fun s => tokenizeTrunc tok 128 s)

/-- `convert_examples_to_features` of `empathetic_summaries.py`
(lines 100-113): identical to the trainer version except that the source
text is read from the `utterance` column. -/
def convert_examples_to_features_empathetic (tok : Tok) (batch : List ExampleE) :
    Features :=
  let input_encodings := batch.map (fun e => tokenizeTrunc tok 1024 e.utterance)
  let target_ids := batch.map (fun e => tokenizeTrunc tok 128 e.summary)
  let labels_copy := target_ids
  let shifted := target_ids.map (fun ids => shiftRight tok.pad_token_id ids)
  { input_ids := input_encodings
    attention_mask := input_encodings.map attentionMask
    labels := shifted }

/-- A concrete tokenizer used to evaluate the definitions on closed
inputs: token `i + 5` for the `i`-th character, padding id `0`. -/
def sampleTok : Tok :=
  { encode := fun s => (List.range s.length).map (fun i => i + 5)
    pad_token_id := 0 }

/-- C1: the claim says `convert_examples_to_features` returns a `labels`
field equal to the direct tokenized target sequence, the decoder-input
sequence `[pad] + target[:-1]` being built separately.  In the code the
returned `'labels'` key holds the shifted decoder-input sequence and the
direct target copy is discarded: on a tokenizer with `encode "hi" = [5, 6]`
and padding id `0`, the returned labels are `[[0, 5]]`, not the direct
target `[[5, 6]]`. -/
theorem c1_labels_field_is_shifted_not_direct_target :
    (convert_examples_to_features_trainer sampleTok
        [{ dialogue := "d", summary := "hi" }]).labels = [[0, 5]] ∧
    directTargetLabels sampleTok ["hi"] = [[5, 6]] ∧
    (convert_examples_to_features_trainer sampleTok
        [{ dialogue := "d", summary := "hi" }]).labels ≠
      directTargetLabels sampleTok ["hi"] :=
  ⟨by decide, by decide, by decide⟩

/-- C2: for every example of the batch whose tokenized target sequence is
non-empty, the decoder-input sequence built by the feature converter (the
`i`-th entry of the returned `labels` field, which holds
`[pad] + target[:-1]`) has the same length as the direct tokenized target
sequence, and its first element is the tokenizer's padding-token id. -/
theorem c2_decoder_input_length_and_head (tok : Tok) (batch : List ExampleT)
    (i : Nat) (hi : i < batch.length)
    (hne : tokenizeTrunc tok 128 batch[i].summary ≠ []) :
    ((convert_examples_to_features_trainer tok batch).labels.getD i []).length
        = (tokenizeTrunc tok 128 batch[i].summary).length ∧
    ((convert_examples_to_features_trainer tok batch).labels.getD i []).head?
        = some tok.pad_token_id := by
  have hlen : 0 < (tokenizeTrunc tok 128 batch[i].summary).length :=
    List.length_pos.mpr hne
  simp only [convert_examples_to_features_trainer, List.map_map,
    List.getD_eq_getElem?_getD, List.getElem?_map,
    List.getElem?_eq_getElem hi]
  constructor
  · simp [shiftRight, List.length_dropLast]
    omega
  · simp [shiftRight]

/-- Witness for C2 at a concrete tokenizer and batch. -/
theorem c2_decoder_input_length_and_head_witness :
    ((convert_examples_to_features_trainer sampleTok
        [{ dialogue := "d", summary := "hi" }]).labels.getD 0 []).length = 2 ∧
    ((convert_examples_to_features_trainer sampleTok
        [{ dialogue := "d", summary := "hi" }]).labels.getD 0 []).head?
        = some 0 := by
  have h := c2_decoder_input_length_and_head sampleTok
    [{ dialogue := "d", summary := "hi" }] 0 (by decide) (by decide)
  simpa using h

/-- C8: the converter tokenizes source and target independently with
truncation: every returned input sequence has length at most 1024, every
returned label sequence has length at most 128, and each attention mask
has the same length as its input sequence. -/
theorem c8_feature_lengths (tok : Tok) (batch : List ExampleT) :
    ((convert_examples_to_features_trainer tok batch).input_ids.all
        (fun ids => ids.length ≤ 1024)) = true ∧
    ((convert_examples_to_features_trainer tok batch).labels.all
        (fun ids => ids.length ≤ 128)) = true ∧
    (convert_examples_to_features_trainer tok batch).attention_mask.map
        List.length
      = (convert_examples_to_features_trainer tok batch).input_ids.map
        List.length := by
  refine ⟨?_, ?_, ?_⟩
  · simp only [convert_examples_to_features_trainer, List.all_eq_true,
      List.mem_map, decide_eq_true_eq]
    rintro _ ⟨e, -, rfl⟩
    simpa [tokenizeTrunc] using List.length_take_le 1024 (tok.encode e.dialogue)
  · simp only [convert_examples_to_features_trainer, List.map_map,
      List.all_eq_true, List.mem_map, decide_eq_true_eq]
    rintro _ ⟨e, -, rfl⟩
    have : (tokenizeTrunc tok 128 e.summary).length ≤ 128 := by
      simpa [tokenizeTrunc] using List.length_take_le 128 (tok.encode e.summary)
    simp only [Function.comp, shiftRight, List.length_cons, List.length_dropLast]
    omega
  · simp [convert_examples_to_features_trainer, attentionMask, List.map_map,
      Function.comp]

/-- C9: the two scripts' feature converters are extensionally equal up to
the name of the source-text column: on the same tokenizer and the same
(source text, summary) pairs they return identical feature dictionaries. -/
theorem c9_converters_agree (tok : Tok) (pairs : List (String × String)) :
    convert_examples_to_features_trainer tok
        (pairs.map (fun p => { dialogue := p.1, summary := p.2 }))
      = convert_examples_to_features_empathetic tok
        (pairs.map (fun p => { utterance := p.1, summary := p.2 })) := by
  simp [convert_examples_to_features_trainer,
    convert_examples_to_features_empathetic, List.map_map, Function.comp]

/-! ### Percentage-based dataset splitting

`empathetic_summaries.py` (lines 47-52) splits the loaded collection with
the slicing expressions `train[:80%]`, `train[80%:90%]`, `train[90%:]`.
The expressions are resolved by the external datasets library. -/

/-- Modelled from the spec: the percent-slice boundary used by the external
datasets library for the `train_valid_test_split` expressions, which maps a
percentage `p` of a collection of size `n` to the example index closest to
`n * p / 100` (closest rounding). -/
def pctBoundary (n p : Nat) : Nat := (n * p + 50) / 100

/-- A half-open slice `xs[a:b]` of a collection. -/
def pySlice {α : Type} (xs : List α) (a b : Nat) : List α := (xs.take b).drop a

/-- The split `train[:80%]`. -/
def trainSplit {α : Type} (xs : List α) : List α :=
  pySlice xs 0 (pctBoundary xs.length 80)

/-- The split `train[80%:90%]`. -/
def validationSplit {α : Type} (xs : List α) : List α :=
  pySlice xs (pctBoundary xs.length 80) (pctBoundary xs.length 90)

/-- The split `train[90%:]`. -/
def testSplit {α : Type} (xs : List α) : List α :=
  xs.drop (pctBoundary xs.length 90)

/-- The example indices selected by `train[:80%]`. -/
def trainIndices (n : Nat) : List Nat := List.range' 0 (pctBoundary n 80)

/-- The example indices selected by `train[80%:90%]`. -/
def validationIndices (n : Nat) : List Nat :=
  List.range' (pctBoundary n 80) (pctBoundary n 90 - pctBoundary n 80)

/-- The example indices selected by `train[90%:]`. -/
def testIndices (n : Nat) : List Nat :=
  List.range' (pctBoundary n 90) (n - pctBoundary n 90)

theorem pctBoundary_hundred (n : Nat) : pctBoundary n 100 = n := by
  unfold pctBoundary; omega

theorem pctBoundary_mono (n : Nat) {p q : Nat} (h : p ≤ q) :
    pctBoundary n p ≤ pctBoundary n q :=
  Nat.div_le_div_right (Nat.add_le_add_right (Nat.mul_le_mul_left n h) 50)

theorem pctBoundary_le (n p : Nat) (h : p ≤ 100) : pctBoundary n p ≤ n := by
  calc pctBoundary n p ≤ pctBoundary n 100 := pctBoundary_mono n h
    _ = n := pctBoundary_hundred n

theorem pySlice_append {α : Type} (xs : List α) (a b c : Nat)
    (hab : a ≤ b) (hbc : b ≤ c) :
    pySlice xs a b ++ pySlice xs b c = pySlice xs a c := by
  unfold pySlice
  have h1 : xs.take b = (xs.take c).take b := by
    rw [List.take_take, min_eq_left hbc]
  rw [h1]
  generalize xs.take c = L
  conv_rhs => rw [← List.take_append_drop b L]
  rw [List.drop_append_eq_append_drop]
  congr 1
  rcases le_or_lt a (L.take b).length with h | h
  · rw [Nat.sub_eq_zero_of_le h, List.drop_zero]
  · have hL : L.length ≤ b := by
      simp [List.length_take] at h; omega
    rw [List.drop_eq_nil_of_le hL]
    simp

theorem range'_glue (s a b : Nat) (h : a ≤ b) :
    List.range' s a ++ List.range' (s + a) (b - a) = List.range' s b := by
  have h2 := List.range'_append s a (b - a) 1
  simpa [Nat.sub_add_cancel h] using h2

/-- C3: the splits `train[:80%]`, `train[80%:90%]`, `train[90%:]` partition
the source collection: their concatenation restores the collection (so
every example occurrence appears in exactly one split), and the index
ranges they select are pairwise disjoint. -/
theorem c3_percentage_splits_partition {α : Type} (xs : List α) :
    (trainSplit xs ++ (validationSplit xs ++ testSplit xs) = xs) ∧
    trainIndices xs.length ++ (validationIndices xs.length ++ testIndices xs.length)
        = List.range xs.length ∧
    (trainIndices xs.length).Disjoint (validationIndices xs.length) ∧
    (trainIndices xs.length).Disjoint (testIndices xs.length) ∧
    (validationIndices xs.length).Disjoint (testIndices xs.length) := by
  have h80_90 : pctBoundary xs.length 80 ≤ pctBoundary xs.length 90 :=
    pctBoundary_mono xs.length (by omega)
  have h90_n : pctBoundary xs.length 90 ≤ xs.length :=
    pctBoundary_le xs.length 90 (by omega)
  refine ⟨?_, ?_, ?_, ?_, ?_⟩
  · have htest : testSplit xs = pySlice xs (pctBoundary xs.length 90) xs.length := by
      simp [testSplit, pySlice, List.take_length]
    rw [htest]
    unfold trainSplit validationSplit
    rw [pySlice_append xs _ _ _ h80_90 h90_n,
      pySlice_append xs 0 _ _ (Nat.zero_le _) (le_trans h80_90 h90_n)]
    simp [pySlice, List.take_length]
  · have hg1 := range'_glue 0 (pctBoundary xs.length 80) (pctBoundary xs.length 90)
      h80_90
    have hg2 := range'_glue 0 (pctBoundary xs.length 90) xs.length h90_n
    rw [Nat.zero_add] at hg1 hg2
    unfold trainIndices validationIndices testIndices
    rw [← List.append_assoc, hg1, hg2, List.range_eq_range']
  · intro m hm hm'
    rw [trainIndices, List.mem_range'_1] at hm
    rw [validationIndices, List.mem_range'_1] at hm'
    omega
  · intro m hm hm'
    rw [trainIndices, List.mem_range'_1] at hm
    rw [testIndices, List.mem_range'_1] at hm'
    omega
  · intro m hm hm'
    rw [validationIndices, List.mem_range'_1] at hm
    rw [testIndices, List.mem_range'_1] at hm'
    omega

/-! ### Batched metric evaluation

`trainer.py` line 65 (and the evaluation calls of
`empathetic_summaries.py`) call `calculate_metric_on_test_ds`, imported
from `utils.py`, which is not among the source files. -/

/-- Modelled from the spec: the batching of `calculate_metric_on_test_ds`
(`utils.py`, absent from the sources).  The spec says the evaluator
partitions the input sequence into contiguous batches of the given size,
the last batch possibly smaller, processed as-is with no
padding-to-full-batch; each batch is the slice `xs[i*B : i*B + B]` for
`i` ranging over `range(0, N, B)`. -/
def batchChunks {α : Type} (B : Nat) (xs : List α) : List (List α) :=
  (List.range ((xs.length + B - 1) / B)).map (fun i => (xs.drop (i * B)).take B)

/-- Modelled from the spec: the evaluator issues one generation call per
batch, so the number of generation calls is the number of batches. -/
def numGenerationCalls {α : Type} (B : Nat) (xs : List α) : Nat :=
  (batchChunks B xs).length

theorem batchChunks_nil {α : Type} (B : Nat) : batchChunks B ([] : List α) = [] := by
  unfold batchChunks
  cases B with
  | zero => simp
  | succ b =>
    rw [List.length_nil, Nat.zero_add, Nat.div_eq_of_lt (by omega)]
    simp

theorem batchChunks_cons {α : Type} (B : Nat) (hB : 0 < B) (x : α) (xs : List α) :
    batchChunks B (x :: xs)
      = ((x :: xs).take B) :: batchChunks B ((x :: xs).drop B) := by
  unfold batchChunks
  have hk : ((x :: xs).length + B - 1) / B = xs.length / B + 1 := by
    rw [List.length_cons, show xs.length + 1 + B - 1 = xs.length + B from by omega,
      Nat.add_div_right _ hB]
  have hm : (((x :: xs).drop B).length + B - 1) / B = xs.length / B := by
    rw [List.length_drop, List.length_cons]
    rcases le_or_lt B (xs.length + 1) with h | h
    · rw [show xs.length + 1 - B + B - 1 = xs.length from by omega]
    · rw [show xs.length + 1 - B + B - 1 = B - 1 from by omega,
        Nat.div_eq_of_lt (by omega), Nat.div_eq_of_lt (by omega)]
  rw [hk, hm, List.range_succ_eq_map, List.map_cons, List.map_map]
  refine congrArg₂ List.cons (by simp) ?_
  apply List.map_congr_left
  intro i _
  simp only [Function.comp_apply, List.drop_drop, Nat.succ_mul]
  rw [Nat.add_comm (i * B) B]

theorem batchChunks_flatten {α : Type} (B : Nat) (hB : 0 < B) :
    ∀ (n : Nat) (xs : List α), xs.length ≤ n → (batchChunks B xs).flatten = xs := by
  intro n
  induction n with
  | zero =>
    intro xs h
    have hnil : xs = [] := List.length_eq_zero.mp (by omega)
    subst hnil
    rw [batchChunks_nil]
    rfl
  | succ n ih =>
    intro xs h
    cases xs with
    | nil => rw [batchChunks_nil]; rfl
    | cons x xs' =>
      rw [batchChunks_cons B hB, List.flatten_cons,
        ih _ (by rw [List.length_drop]; simp at h ⊢; omega),
        List.take_append_drop]

theorem batchChunks_last {α : Type} (B : Nat) (hB : 0 < B) :
    ∀ (n : Nat) (xs : List α), xs.length ≤ n → xs ≠ [] →
    ∃ lc, (batchChunks B xs).getLast? = some lc ∧
      lc.length = if xs.length % B = 0 then B else xs.length % B := by
  intro n
  induction n with
  | zero =>
    intro xs h hne
    have hnil : xs = [] := List.length_eq_zero.mp (by omega)
    exact absurd hnil hne
  | succ n ih =>
    intro xs h hne
    cases xs with
    | nil => exact absurd rfl hne
    | cons x xs' =>
      rw [batchChunks_cons B hB]
      by_cases hd : (x :: xs').drop B = []
      · rw [hd, batchChunks_nil]
        refine ⟨(x :: xs').take B, by simp, ?_⟩
        have hlen : (x :: xs').length ≤ B := List.drop_eq_nil_iff.mp hd
        rw [List.length_take]
        rw [List.length_cons] at hlen ⊢
        rcases eq_or_lt_of_le hlen with heq | hlt
        · rw [heq]
          simp
        · rw [Nat.mod_eq_of_lt hlt, if_neg (by omega), min_eq_right (by omega)]
      · have hlenN : B < (x :: xs').length := by
          by_contra hcon
          exact hd (List.drop_eq_nil_iff.mpr (by omega))
        obtain ⟨lc, hlc, hlcl⟩ := ih ((x :: xs').drop B)
          (by rw [List.length_drop]; rw [List.length_cons] at h ⊢; omega) hd
        refine ⟨lc, ?_, ?_⟩
        · cases hc : batchChunks B ((x :: xs').drop B) with
          | nil =>
            rw [hc] at hlc
            simp at hlc
          | cons c cs =>
            rw [hc] at hlc
            rw [List.getLast?_cons_cons]
            exact hlc
        · rw [hlcl, List.length_drop]
          have hmod : ((x :: xs').length - B) % B = (x :: xs').length % B := by
            conv_rhs => rw [show (x :: xs').length
              = (x :: xs').length - B + B from by omega]
            rw [Nat.add_mod_right]
          rw [hmod]

/-- C4: for every evaluation split and every batch size `B > 0`, the
evaluator issues exactly `ceil(N/B) = (N + B - 1) / B` generation calls,
the batches are contiguous and unpadded (their concatenation restores the
split), and the last batch has `N mod B` examples, or `B` when
`N mod B = 0`. -/
theorem c4_batched_eval_partition {α : Type} (B : Nat) (hB : 0 < B)
    (xs : List α) :
    numGenerationCalls B xs = (xs.length + B - 1) / B ∧
    (batchChunks B xs).flatten = xs ∧
    (xs ≠ [] → ∃ lc, (batchChunks B xs).getLast? = some lc ∧
      lc.length = if xs.length % B = 0 then B else xs.length % B) :=
  ⟨by simp [numGenerationCalls, batchChunks],
   batchChunks_flatten B hB xs.length xs le_rfl,
   fun hne => batchChunks_last B hB xs.length xs le_rfl hne⟩

/-- Witness for C4: a split of 4 examples with batch size 3 gives 2
generation calls, the batches concatenate to the split, and the last batch
has `4 mod 3 = 1` example. -/
theorem c4_batched_eval_partition_witness :
    numGenerationCalls 3 [0, 1, 2, 3] = 2 ∧
    (batchChunks 3 [0, 1, 2, 3]).flatten = [0, 1, 2, 3] ∧
    ∃ lc, (batchChunks 3 [0, 1, 2, 3]).getLast? = some lc ∧
      lc.length = if ([0, 1, 2, 3] : List Nat).length % 3 = 0 then 3
        else ([0, 1, 2, 3] : List Nat).length % 3 := by
  obtain ⟨h1, h2, h3⟩ := c4_batched_eval_partition 3 (by decide) [0, 1, 2, 3]
  exact ⟨h1.trans (by decide), h2, h3 (by decide)⟩

/-! ### Checkpoint summary generation

`trainer.py` (lines 201-211) imports `generate_summaries_for_checkpoints`
from `checkpoint_summarizer.py`, which is not among the source files. -/

/-- Modelled from the spec: `generate_summaries_for_checkpoints`
(`checkpoint_summarizer.py`, absent from the sources).  Per the spec it
iterates the checkpoint subdirectories of a root directory, loads each as
a summarization pipeline and generates one sample summary, recording
(checkpoint name, summary) pairs; a failure loading or running one
checkpoint is caught and logged and that checkpoint is skipped.  The
load-and-generate step for one checkpoint is abstracted as a fallible
function; the generator is the per-checkpoint try/except iteration,
returning the recorded pairs and the logged error messages. -/
def generate_summaries_for_checkpoints
    (loadAndGenerate : String → Except String String) :
    List String → List (String × String) × List String
  | [] => ([], [])
  | c :: cs =>
    let rest := generate_summaries_for_checkpoints loadAndGenerate cs
    match loadAndGenerate c with
    | Except.ok s => ((c, s) :: rest.1, rest.2)
    | Except.error e =>
      (rest.1, ("Error with checkpoint " ++ c ++ ": " ++ e) :: rest.2)

theorem gen_summaries_fst (load : String → Except String String)
    (cps : List String) :
    (generate_summaries_for_checkpoints load cps).1
      = cps.filterMap (fun c => match load c with
          | Except.ok s => some (c, s)
          | Except.error _ => none) := by
  induction cps with
  | nil => rfl
  | cons c cs ih =>
    rw [List.filterMap_cons]
    unfold generate_summaries_for_checkpoints
    cases h : load c <;> simp [h, ih]

theorem gen_summaries_snd (load : String → Except String String)
    (cps : List String) :
    (generate_summaries_for_checkpoints load cps).2
      = cps.filterMap (fun c => match load c with
          | Except.ok _ => none
          | Except.error e =>
            some ("Error with checkpoint " ++ c ++ ": " ++ e)) := by
  induction cps with
  | nil => rfl
  | cons c cs ih =>
    rw [List.filterMap_cons]
    unfold generate_summaries_for_checkpoints
    cases h : load c <;> simp [h, ih]

theorem filterMap_ok_map_fst (load : String → Except String String)
    (l : List String) (hok : ∀ c ∈ l, ∃ s, load c = Except.ok s) :
    (l.filterMap (fun c => match load c with
        | Except.ok s => some (c, s)
        | Except.error _ => none)).map Prod.fst = l := by
  induction l with
  | nil => rfl
  | cons c cs ih =>
    obtain ⟨s, hs⟩ := hok c (List.mem_cons_self c cs)
    rw [List.filterMap_cons]
    simp only [hs]
    rw [List.map_cons, ih (fun d hd => hok d (List.mem_cons_of_mem c hd))]

theorem filterMap_ok_no_errors (load : String → Except String String)
    (l : List String) (hok : ∀ c ∈ l, ∃ s, load c = Except.ok s) :
    l.filterMap (fun c => match load c with
        | Except.ok _ => none
        | Except.error e =>
          some ("Error with checkpoint " ++ c ++ ": " ++ e)) = [] := by
  induction l with
  | nil => rfl
  | cons c cs ih =>
    obtain ⟨s, hs⟩ := hok c (List.mem_cons_self c cs)
    rw [List.filterMap_cons]
    simp only [hs]
    exact ih (fun d hd => hok d (List.mem_cons_of_mem c hd))

/-- C5: failures are isolated per checkpoint.  If one checkpoint in the
root directory fails to load or run while all others succeed, the
generator (which never raises: it is a total function into a plain pair)
still returns the summaries of every other checkpoint, in order, and logs
exactly the one error. -/
theorem c5_checkpoint_failure_isolated (load : String → Except String String)
    (pre post : List String) (bad e : String)
    (hbad : load bad = Except.error e)
    (hok : ∀ c ∈ pre ++ post, ∃ s, load c = Except.ok s) :
    (generate_summaries_for_checkpoints load (pre ++ bad :: post)).1.map
        Prod.fst = pre ++ post ∧
    (generate_summaries_for_checkpoints load (pre ++ bad :: post)).2
      = ["Error with checkpoint " ++ bad ++ ": " ++ e] := by
  have hpre : ∀ c ∈ pre, ∃ s, load c = Except.ok s :=
    fun c hc => hok c (List.mem_append_left post hc)
  have hpost : ∀ c ∈ post, ∃ s, load c = Except.ok s :=
    fun c hc => hok c (List.mem_append_right pre hc)
  constructor
  · rw [gen_summaries_fst, List.filterMap_append, List.filterMap_cons, hbad]
    simp only [List.map_append]
    rw [filterMap_ok_map_fst load pre hpre]
    rw [filterMap_ok_map_fst load post hpost]
  · rw [gen_summaries_snd, List.filterMap_append, List.filterMap_cons, hbad]
    rw [filterMap_ok_no_errors load pre hpre]
    rw [filterMap_ok_no_errors load post hpost]
    rfl

/-- A concrete checkpoint loader for the witness: the spec's scenario of
three checkpoint subdirectories of which the second is corrupted. -/
def sampleCheckpointLoad (c : String) : Except String String :=
  if c = "checkpoint-2" then Except.error "corrupted"
  else Except.ok ("summary from " ++ c)

/-- Witness for C5: with three checkpoints of which one is unloadable, the
generator returns summaries for the two valid checkpoints and logs one
error, without raising. -/
theorem c5_checkpoint_failure_isolated_witness :
    (generate_summaries_for_checkpoints sampleCheckpointLoad
        ["checkpoint-1", "checkpoint-2", "checkpoint-3"]).1.map Prod.fst
      = ["checkpoint-1", "checkpoint-3"] ∧
    (generate_summaries_for_checkpoints sampleCheckpointLoad
        ["checkpoint-1", "checkpoint-2", "checkpoint-3"]).2
      = ["Error with checkpoint " ++ "checkpoint-2" ++ ": " ++ "corrupted"] := by
  have h := c5_checkpoint_failure_isolated sampleCheckpointLoad
    ["checkpoint-1"] ["checkpoint-3"] "checkpoint-2" "corrupted" (by rfl) ?_
  · exact h
  · intro c hc
    simp only [List.cons_append, List.nil_append, List.mem_cons,
      List.not_mem_nil, or_false] at hc
    rcases hc with rfl | rfl
    · exact ⟨_, rfl⟩
    · exact ⟨_, rfl⟩

/-! ### Straight-line script control flow

The scripts' tails are sequences of fallible side-operations, some wrapped
in `try/except` blocks that log and fall through, some bare so that an
exception propagates and terminates the script. -/

/-- One statement of a script: either a fallible action wrapped in
`try/except` (the except block logs the error with a context prefix and
falls through; a success logs the given info messages), or a bare fallible
action whose exception propagates uncaught. -/
inductive ScriptStep where
  | guarded (name : String) (okMsgs : List String) (errCtx : String)
      (act : Except String Unit) : ScriptStep
  | bare (name : String) (act : Except String Unit) : ScriptStep

/-- Run a straight-line script.  Returns the names of the statements that
were executed together with the log, or the uncaught exception if a bare
statement fails, in which case the following statements are not executed. -/
def runScript : List ScriptStep → Except String (List String × List String)
  | [] => Except.ok ([], [])
  | ScriptStep.guarded n okMsgs ctx act :: rest =>
    let entries := match act with
      | Except.ok _ => okMsgs
      | Except.error e => [ctx ++ e]
    match runScript rest with
    | Except.ok (ns, log) => Except.ok (n :: ns, entries ++ log)
    | Except.error e => Except.error e
  | ScriptStep.bare n act :: rest =>
    match act with
    | Except.error e => Except.error e
    | Except.ok _ =>
      match runScript rest with
      | Except.ok (ns, log) => Except.ok (n :: ns, log)
      | Except.error e => Except.error e

/-- The tail of `trainer.py` (lines 164-198): saving the fine-tuned model,
saving the tokenizer, and the final qualitative summarization, each
wrapped in its own `try/except` block that logs and continues. -/
def trainerScriptTail (saveModel saveTok summarize : Except String Unit) :
    List ScriptStep :=
  [ScriptStep.guarded "trainer.model.save_pretrained"
      ["Model saved successfully."] "Error saving model: " saveModel,
   ScriptStep.guarded "tokenizer.save_pretrained"
      ["Tokenizer saved successfully."] "Error saving tokenizer: " saveTok,
   ScriptStep.guarded "pipeline summarization"
      ["Dialogue:", "Reference Summary:", "Model Summary:"]
      "Error during summarization: " summarize]

/-- C6: whatever the outcomes of the model save, the tokenizer save and
the final summarization, the script tail completes without an uncaught
exception, all three steps are executed (in particular the tokenizer save
and the summarization are still attempted after a model-save failure), and
each failure is logged with its context prefix. -/
theorem c6_save_failures_isolated
    (saveModel saveTok summarize : Except String Unit) :
    ∃ ns log,
      runScript (trainerScriptTail saveModel saveTok summarize)
        = Except.ok (ns, log) ∧
      ns = ["trainer.model.save_pretrained", "tokenizer.save_pretrained",
        "pipeline summarization"] ∧
      (∀ e, saveModel = Except.error e → ("Error saving model: " ++ e) ∈ log) ∧
      (∀ e, saveTok = Except.error e → ("Error saving tokenizer: " ++ e) ∈ log) ∧
      (∀ e, summarize = Except.error e →
        ("Error during summarization: " ++ e) ∈ log) := by
  cases saveModel <;> cases saveTok <;> cases summarize <;>
    refine ⟨_, _, rfl, rfl, ?_, ?_, ?_⟩ <;> simp [trainerScriptTail, runScript]

/-- Witness for C6: with all three steps failing, the script tail still
completes, executes all three steps and logs all three errors. -/
theorem c6_save_failures_isolated_witness :
    ∃ ns log,
      runScript (trainerScriptTail (Except.error "disk full")
          (Except.error "disk full") (Except.error "cuda error"))
        = Except.ok (ns, log) ∧
      ns = ["trainer.model.save_pretrained", "tokenizer.save_pretrained",
        "pipeline summarization"] ∧
      ("Error saving model: " ++ "disk full") ∈ log ∧
      ("Error saving tokenizer: " ++ "disk full") ∈ log ∧
      ("Error during summarization: " ++ "cuda error") ∈ log := by
  obtain ⟨ns, log, h1, h2, h3, h4, h5⟩ := c6_save_failures_isolated
    (Except.error "disk full") (Except.error "disk full")
    (Except.error "cuda error")
  exact ⟨ns, log, h1, h2, h3 "disk full" rfl, h4 "disk full" rfl,
    h5 "cuda error" rfl⟩

/-- The histogram-save site of `trainer.py` (line 87): `plt.savefig` is
called bare, with the rest of the script (feature conversion, training)
following it. -/
def trainerHistogramSection (save : Except String Unit) : List ScriptStep :=
  [ScriptStep.bare "plt.savefig" save,
   ScriptStep.bare "convert_examples_and_train" (Except.ok ())]

/-- The histogram-save site of `empathetic_summaries.py` (lines 94-97):
the same `plt.savefig` call wrapped in a `try/except` block that logs
`Error saving token histogram plot: ...` and continues. -/
def empatheticHistogramSection (save : Except String Unit) : List ScriptStep :=
  [ScriptStep.guarded "plt.savefig" [] "Error saving token histogram plot: " save,
   ScriptStep.bare "convert_examples_and_train" (Except.ok ())]

/-- C10: error handling of the histogram-image save is asymmetric.  In
`trainer.py` a `plt.savefig` failure propagates uncaught and the rest of
the script is not executed, while in `empathetic_summaries.py` the same
failure is caught and logged and execution continues; on success both
continue. -/
theorem c10_histogram_save_asymmetric (e : String) :
    runScript (trainerHistogramSection (Except.error e)) = Except.error e ∧
    runScript (empatheticHistogramSection (Except.error e))
      = Except.ok (["plt.savefig", "convert_examples_and_train"],
          ["Error saving token histogram plot: " ++ e]) ∧
    runScript (trainerHistogramSection (Except.ok ()))
      = Except.ok (["plt.savefig", "convert_examples_and_train"], []) :=
  ⟨rfl, rfl, rfl⟩

/-! ### The ROUGE evaluation callback

`RougeCallback` (`trainer.py`, lines 110-123) stores the metric, the
evaluation dataset, the tokenizer and the device; `on_evaluate` calls the
batched metric evaluator on the stored evaluation dataset and the model it
receives from the training loop, and logs the resulting scores tagged with
the current epoch.  The training-loop state visible to a callback is
modelled explicitly: model weights, optimizer state, the control signals
and the log. -/

/-- The control signals a trainer callback may flip to alter the training
trajectory. -/
structure TrainerControl where
  should_training_stop : Bool
  should_epoch_stop : Bool
  should_save : Bool
  should_evaluate : Bool
  should_log : Bool

/-- The training-loop state passed to callbacks; `epoch` is the current
training epoch. -/
structure TrainerState where
  epoch : Nat

/-- The mutable training world a callback could affect: model weights,
optimizer state, control signals and the log. -/
structure TrainingWorld where
  modelWeights : List Int
  optimizerState : List Int
  control : TrainerControl
  log : List String

/-- The fields stored by `RougeCallback.__init__`. -/
structure RougeCallback where
  rouge_metric : String
  eval_dataset : List ExampleT
  tokenizer_name : String
  device : String

/-- `RougeCallback.on_evaluate`: runs the batched metric evaluator
(`calculate`, the external `calculate_metric_on_test_ds` followed by the
`rouge_dict` formatting) on the stored evaluation dataset and the model
received from the training loop, and appends one log entry tagged with the
current epoch.  Nothing else in the world is touched. -/
def RougeCallback.on_evaluate (cb : RougeCallback)
    (calculate : List ExampleT → List Int → String)
    (state : TrainerState) (w : TrainingWorld) : TrainingWorld :=
  let score := calculate cb.eval_dataset w.modelWeights
  { w with log := w.log ++
      ["ROUGE scores after epoch " ++ toString state.epoch ++ ": " ++ score] }

/-- C7: `on_evaluate` is purely observational: it leaves the model
weights, the optimizer state and the control signals it receives
unchanged, and its only effect is one new log entry reporting the
evaluator's scores tagged with the current training epoch. -/
theorem c7_callback_frame (cb : RougeCallback)
    (calculate : List ExampleT → List Int → String)
    (state : TrainerState) (w : TrainingWorld) :
    (cb.on_evaluate calculate state w).modelWeights = w.modelWeights ∧
    (cb.on_evaluate calculate state w).optimizerState = w.optimizerState ∧
    (cb.on_evaluate calculate state w).control = w.control ∧
    (cb.on_evaluate calculate state w).log = w.log ++
      ["ROUGE scores after epoch " ++ toString state.epoch ++ ": "
        ++ calculate cb.eval_dataset w.modelWeights] :=
  ⟨rfl, rfl, rfl, rfl⟩
